import Mathlib

/-!
Verification of the rebuild-decision / ledger / chunking core of
`build_vector_db.py`, shallowly embedded in Lean.

The script scans a directory for `.pdf` files, compares that set against a
persisted JSON ledger of previously processed file names, and rebuilds the
vector store (extraction, chunking, embedding, store write) when the sets
diverge or the store's persist directory is missing, committing the ledger
only after the store write succeeds.

External collaborators (the `json` module, `PyPDFLoader`, the embedding
backend and the Chroma store) are modelled at their call boundaries as the
spec describes them; everything else is translated from the source.
-/

/-- A JSON value, the abstract result of `json.load` on a well-formed file.
Python's `json` module serialises and parses these losslessly, so the
ledger file is modelled at this level rather than as raw text. -/
inductive Json where
  | jnull
  | jbool (b : Bool)
  | jnum (n : Int)
  | jstr (s : String)
  | jarr (l : List Json)
  | jobj (l : List (String × Json))
deriving Repr

/-- Content of the ledger record file: `none` = no file at the path;
`some none` = a file exists but is not well-formed JSON (so `json.load`
raises `JSONDecodeError`); `some (some v)` = a file parsing to `v`. -/
abbrev LedgerFile := Option (Option Json)

/-- Errors `load_processed_files_record` can raise: `corrupt` is the
`json.JSONDecodeError` from unparseable content, `typeError` the
`TypeError` from `set(...)` applied to a non-iterable JSON value. -/
inductive LedgerError where
  | corrupt
  | typeError
deriving DecidableEq, Repr

/-- Reads a JSON array as a list of strings; `none` when some element is
not a string (Python `set(...)` on such a list raises on unhashable
elements; the ledger only ever holds strings). -/
def asStringList : List Json → Option (List String)
  | [] => some []
  | Json.jstr s :: rest => (asStringList rest).map (fun l => s :: l)
  | _ => none

/-- Embedding of `load_processed_files_record` at the content level:
missing file yields the empty set, unparseable content raises, a JSON
array of strings yields the set of its elements.  Python `set(v)` also
iterates strings (characters) and dict keys; other values raise
`TypeError`. -/
def loadLedgerContent : LedgerFile → Except LedgerError (Finset String)
  | none => Except.ok ∅
  | some none => Except.error LedgerError.corrupt
  | some (some (Json.jarr l)) =>
      match asStringList l with
      | some ss => Except.ok ss.toFinset
      | none => Except.error LedgerError.typeError
  | some (some (Json.jstr s)) =>
      Except.ok (s.toList.map (fun c => String.mk [c])).toFinset
  | some (some (Json.jobj l)) => Except.ok (l.map Prod.fst).toFinset
  | some (some _) => Except.error LedgerError.typeError

/-- Embedding of `save_processed_files_record` at the content level:
`json.dump(list(files_set), f)` writes a JSON array holding each element
of the set exactly once (Python's `list(set)` order is arbitrary; the
sorted enumeration is one such order). -/
def saveLedgerContent (files_set : Finset String) : LedgerFile :=
  some (some (Json.jarr ((files_set.sort (· ≤ ·)).map Json.jstr)))

/-- Embedding of `load_processed_files_record(record_path)` over a
filesystem mapping paths to ledger-file contents. -/
def load_processed_files_record (fs : String → LedgerFile) (record_path : String) :
    Except LedgerError (Finset String) :=
  loadLedgerContent (fs record_path)

/-- Embedding of `save_processed_files_record(record_path, files_set)`:
overwrites the file at `record_path`, leaving every other path alone. -/
def save_processed_files_record (fs : String → LedgerFile) (record_path : String)
    (files_set : Finset String) : String → LedgerFile :=
  fun p => if p = record_path then saveLedgerContent files_set else fs p

/-- One directory entry as the script observes it: `name`, `is_file()`,
`suffix` (empty string when the file has no extension), the raw byte
content and modification time (never consulted by the script), and the
outcome of `PyPDFLoader(...).load()` — `none` when the loader raises,
`some pages` the list of page texts otherwise. -/
structure DirEntry where
  name : String
  isFile : Bool
  suffix : String
  content : List Nat
  mtime : Nat
  pages : Option (List (List Char))
deriving DecidableEq, Repr

/-- Python's `str.lower()` as used on file suffixes: lower-case each
character. -/
def lower (s : String) : String := String.mk (s.data.map Char.toLower)

/-- Embedding of `get_current_pdf_files`: the set of names of immediate
entries that are regular files with a case-insensitive `.pdf` suffix. -/
def get_current_pdf_files (entries : List DirEntry) : Finset String :=
  ((entries.filter fun e => e.isFile && lower e.suffix == ".pdf").map
    (fun e => e.name)).toFinset

/-- Embedding of the `needs_rebuild` expression (lines 104-106): rebuild
when the Chroma persist directory is missing, or some current file is not
recorded, or some recorded file is no longer current. -/
def needs_rebuild (index_exists : Bool) (current recorded : Finset String) : Bool :=
  !index_exists || !(decide (current ⊆ recorded)) || !(decide (recorded ⊆ current))

/-- One extracted page: the source file name and its text. -/
structure Page where
  source : String
  text : List Char
deriving DecidableEq, Repr

/-- A diagnostic record written by `logging`: an error (caught exception,
missing extension) or an informational skip notice, tagged with the file
name it concerns. -/
inductive Diag where
  | errorDiag (name : String)
  | infoDiag (name : String)
deriving DecidableEq, Repr

/-- One iteration of the extraction loop (lines 116-139): non-files are
skipped; a file with no extension hits `raise logging.error(...)`, which
raises and is caught by the `except` clause, logging an error and skipping
the file; a `.pdf` file is loaded, a loader failure likewise being caught,
logged and skipped; any other extension is logged as unsupported and
skipped. -/
def processFile (e : DirEntry) : List Page × List Diag :=
  if !e.isFile then ([], [])
  else if e.suffix = "" then ([], [Diag.errorDiag e.name])
  else if lower e.suffix = ".pdf" then
    match e.pages with
    | some ps => (ps.map (fun t => Page.mk e.name t), [])
    | none => ([], [Diag.errorDiag e.name])
  else ([], [Diag.infoDiag e.name])

/-- The whole extraction loop: pages are accumulated with `docs.extend`
in directory order, diagnostics in the same order. -/
def extractDocs (entries : List DirEntry) : List Page × List Diag :=
  entries.foldr (fun e acc => ((processFile e).1 ++ acc.1, (processFile e).2 ++ acc.2))
    ([], [])

/-- Modelled from the spec: the chunking step (lines 147-152) delegates to
`RecursiveCharacterTextSplitter(chunk_size=5000, chunk_overlap=2000,
add_start_index=True)` from the external `langchain_text_splitters`
package, whose implementation is not part of this repository.  Per §4.4 of
the spec the behaviour is a sliding window of 5000 characters with stride
`5000 - 2000 = 3000`, each chunk tagged with its starting character offset
relative to the source page; a nonempty page shorter than the window
yields exactly one chunk, and an empty page yields none. -/
def split_text (start : Nat) (text : List Char) : List (Nat × List Char) :=
  if h0 : text.isEmpty then []
  else if h1 : text.length ≤ 5000 then [(start, text)]
  else (start, text.take 5000) :: split_text (start + 3000) (text.drop 3000)
termination_by text.length
decreasing_by simp [List.length_drop]; omega

/-- A chunk as handed to the index writer: source file name, starting
character offset within its page, and the text slice. -/
structure Chunk where
  source : String
  start_index : Nat
  text : List Char
deriving DecidableEq, Repr

/-- Embedding of `text_splitter.split_documents(docs)`: each page is split
independently, chunks keeping their page's source and their start offset. -/
def split_documents (docs : List Page) : List Chunk :=
  (docs.map (fun p =>
    (split_text 0 p.text).map (fun c => Chunk.mk p.source c.1 c.2))).flatten

/-- Ways one invocation of the script can abort: missing watched folder
(line 89), unparseable or unusable ledger content (line 71), or a failed
`Chroma.from_documents` call (line 159). -/
inductive RunError where
  | notFound
  | ledgerFailure (e : LedgerError)
  | storeWrite
deriving DecidableEq, Repr

/-- The state one invocation reads and writes: existence and entries of
the watched `docs` folder, the ledger record file, existence of the
Chroma persist directory, the collection contents, and the oracle
`storeOk` telling whether the external `Chroma.from_documents` call
(embedding plus store write) would succeed this run.  Per §4.5/§7 of the
spec a failed backend call leaves the store in its prior-consistent
state. -/
structure World where
  dirExists : Bool
  entries : List DirEntry
  ledger : LedgerFile
  chromaDirExists : Bool
  store : Option (List Chunk)
  storeOk : Bool

/-- What one invocation produced: the final state, whether the
embedding/store backend was called, how many chunks were embedded
(`none` when the backend call failed partway, leaving the count
unknowable), the `needs_rebuild` decision (`none` when the run aborted
before deciding), and the outcome. -/
structure RunResult where
  world : World
  storeCalled : Bool
  embedCalls : Option Nat
  decision : Option Bool
  outcome : Except RunError Unit

/-- Embedding of the script's top level (lines 88-171): require the
folder, scan the current PDF names, load the ledger, evaluate
`needs_rebuild`; when a rebuild is needed, run the extraction loop and
the splitter, call `Chroma.from_documents` (embedding every chunk and
overwriting the collection), and only after that call succeeds save the
scanned file set to the ledger; otherwise the run is a no-op. -/
def runScript (w : World) : RunResult :=
  if !w.dirExists then
    ⟨w, false, some 0, none, Except.error RunError.notFound⟩
  else
    let current := get_current_pdf_files w.entries
    match loadLedgerContent w.ledger with
    | Except.error e =>
        ⟨w, false, some 0, none, Except.error (RunError.ledgerFailure e)⟩
    | Except.ok recorded =>
        if needs_rebuild w.chromaDirExists current recorded then
          let splits := split_documents (extractDocs w.entries).1
          if w.storeOk then
            ⟨{ w with
                chromaDirExists := true
                store := some splits
                ledger := saveLedgerContent current },
              true, some splits.length, some true, Except.ok ()⟩
          else
            ⟨w, true, none, some true, Except.error RunError.storeWrite⟩
        else
          ⟨w, false, some 0, some false, Except.ok ()⟩

/-- The fields of a directory entry the script's decision path can
observe: name, regular-file flag and suffix.  Byte contents, modification
time and extraction outcome are not among them. -/
def obsEntry (e : DirEntry) : String × Bool × String :=
  (e.name, e.isFile, e.suffix)

/-- A world whose single eligible file `a.pdf` fails extraction
(`PyPDFLoader` raises): the folder exists, no ledger yet, no Chroma
directory, and the backend call would succeed. -/
def cexWorld : World :=
  ⟨true, [⟨"a.pdf", true, ".pdf", [], 0, none⟩], none, false, none, true⟩

/-- Chunk count of the sliding window, in closed form. -/
lemma split_text_length (start : Nat) (text : List Char) :
    (split_text start text).length =
      if text.isEmpty then 0 else max 1 ((text.length - 2000 + 2999) / 3000) := by
  induction start, text using split_text.induct with
  | case1 start text h0 =>
      rw [split_text, dif_pos h0]
      simp [h0]
  | case2 start text h0 h1 =>
      rw [split_text, dif_neg h0, dif_pos h1]
      have hlen : 0 < text.length := by
        cases text with
        | nil => simp at h0
        | cons a t => simp
      simp only [List.length_cons, List.length_nil, if_neg h0]
      omega
  | case3 start text h0 h1 ih =>
      rw [split_text, dif_neg h0, dif_neg h1]
      have hlen : 5000 < text.length := by omega
      have hld : (text.drop 3000).length = text.length - 3000 :=
        List.length_drop 3000 text
      have hdrop : ((text.drop 3000).isEmpty) = false := by
        cases hd : text.drop 3000 with
        | nil => rw [hd] at hld; simp at hld; omega
        | cons a t => rfl
      rw [List.length_cons, ih, hdrop]
      simp only [if_neg h0, List.length_drop, Bool.false_eq_true, if_false]
      omega

/-- The first chunk of a window starting at `s` is recorded at offset `s`. -/
lemma split_text_head_fst (s : Nat) (t : List Char) :
    ∀ b ∈ (split_text s t).head?, b.1 = s := by
  rw [split_text]
  split
  · simp
  · split
    · simp
    · simp

/-- Consecutive chunks of one page start exactly 3000 characters apart. -/
lemma split_text_chain (start : Nat) (text : List Char) :
    List.Chain' (fun a b => b.1 = a.1 + 3000) (split_text start text) := by
  induction start, text using split_text.induct with
  | case1 start text h0 =>
      rw [split_text, dif_pos h0]
      exact List.chain'_nil
  | case2 start text h0 h1 =>
      rw [split_text, dif_neg h0, dif_pos h1]
      exact List.chain'_singleton _
  | case3 start text h0 h1 ih =>
      rw [split_text, dif_neg h0, dif_neg h1]
      refine List.chain'_cons'.mpr ⟨?_, ih⟩
      intro b hb
      exact split_text_head_fst (start + 3000) (text.drop 3000) b hb

/-- Content-level round trip: loading what `save` wrote returns the set. -/
lemma loadLedgerContent_save (S : Finset String) :
    loadLedgerContent (saveLedgerContent S) = Except.ok S := by
  have hlist : ∀ l : List String, asStringList (l.map Json.jstr) = some l := by
    intro l
    induction l with
    | nil => rfl
    | cons a t ih => simp [asStringList, ih]
  simp only [saveLedgerContent, loadLedgerContent]
  rw [hlist]
  simp [Finset.sort_toFinset]

/-- With the index present and no divergence, no rebuild is decided. -/
lemma needs_rebuild_self (S : Finset String) : needs_rebuild true S S = false := by
  simp [needs_rebuild]

/-- Scanning a directory one entry at a time. -/
lemma get_current_cons (e : DirEntry) (t : List DirEntry) :
    get_current_pdf_files (e :: t) =
      if (e.isFile && lower e.suffix == ".pdf") = true
      then insert e.name (get_current_pdf_files t)
      else get_current_pdf_files t := by
  simp only [get_current_pdf_files, List.filter_cons]
  split
  · simp
  · rfl

/-- The scan result depends only on each entry's name, file flag and
suffix. -/
lemma scan_obs (l₁ l₂ : List DirEntry)
    (h : l₁.map obsEntry = l₂.map obsEntry) :
    get_current_pdf_files l₁ = get_current_pdf_files l₂ := by
  induction l₁ generalizing l₂ with
  | nil =>
      cases l₂ with
      | nil => rfl
      | cons b t => simp at h
  | cons a t ih =>
      cases l₂ with
      | nil => simp at h
      | cons b t₂ =>
          simp only [List.map_cons, List.cons.injEq] at h
          obtain ⟨hob, ht⟩ := h
          have h1 : a.name = b.name := congrArg Prod.fst hob
          have h2 : a.isFile = b.isFile := congrArg (fun x => x.2.1) hob
          have h3 : a.suffix = b.suffix := congrArg (fun x => x.2.2) hob
          rw [get_current_cons, get_current_cons, h1, h2, h3, ih t₂ ht]

/-- A file that raises in the extraction loop (missing extension, or PDF
loader failure) contributes no pages and exactly one error diagnostic. -/
lemma processFile_fail (e : DirEntry) (hfile : e.isFile = true)
    (hfail : e.suffix = "" ∨ (lower e.suffix = ".pdf" ∧ e.pages = none)) :
    processFile e = ([], [Diag.errorDiag e.name]) := by
  rcases hfail with hs | ⟨hsfx, hpg⟩
  · simp [processFile, hfile, hs]
  · have hs : ¬ e.suffix = "" := by
      intro h
      rw [h] at hsfx
      exact absurd hsfx (by decide)
    simp [processFile, hfile, hs, hsfx, hpg]

/-- Unfolding the extraction loop over the first entry. -/
lemma extractDocs_cons (e : DirEntry) (t : List DirEntry) :
    extractDocs (e :: t) =
      ((processFile e).1 ++ (extractDocs t).1,
       (processFile e).2 ++ (extractDocs t).2) := rfl

/-- The extraction loop distributes over list concatenation. -/
lemma extractDocs_append (a b : List DirEntry) :
    extractDocs (a ++ b) =
      ((extractDocs a).1 ++ (extractDocs b).1,
       (extractDocs a).2 ++ (extractDocs b).2) := by
  induction a with
  | nil => simp [extractDocs]
  | cons e t ih =>
      simp only [List.cons_append, extractDocs_cons, ih, List.append_assoc]

/-- Every page the extraction loop collects comes from an eligible `.pdf`
entry, so its source name is in the scanned set. -/
lemma extract_source_mem (entries : List DirEntry) :
    ∀ p ∈ (extractDocs entries).1, p.source ∈ get_current_pdf_files entries := by
  induction entries with
  | nil => intro p hp; simp [extractDocs] at hp
  | cons e t ih =>
      intro p hp
      rw [extractDocs_cons] at hp
      rw [get_current_cons]
      rcases List.mem_append.mp hp with hL | hR
      · cases hf : e.isFile with
        | false => simp [processFile, hf] at hL
        | true =>
            by_cases hs : e.suffix = ""
            · simp [processFile, hf, hs] at hL
            · by_cases hpdf : lower e.suffix = ".pdf"
              · cases hpg : e.pages with
                | none => simp [processFile, hf, hs, hpdf, hpg] at hL
                | some ps =>
                    simp [processFile, hf, hs, hpdf, hpg] at hL
                    obtain ⟨tx, htx, hpe⟩ := hL
                    subst hpe
                    simp [hpdf]
              · simp [processFile, hf, hs, hpdf] at hL
      · have hmem := ih p hR
        split
        · exact Finset.mem_insert_of_mem hmem
        · exact hmem

/-- Every chunk the splitter emits keeps the source name of one of the
input pages. -/
lemma split_documents_source (docs : List Page) :
    ∀ c ∈ split_documents docs, ∃ p ∈ docs, c.source = p.source := by
  intro c hc
  simp only [split_documents, List.mem_flatten, List.mem_map] at hc
  obtain ⟨l, ⟨p, hp, hl⟩, hcl⟩ := hc
  subst hl
  obtain ⟨x, hx, hxc⟩ := List.mem_map.mp hcl
  exact ⟨p, hp, by rw [← hxc]⟩

/-- A run that decides against rebuilding changes nothing and calls no
backend. -/
lemma run_of_no_rebuild (w : World) (hdir : w.dirExists = true)
    (recorded : Finset String)
    (hload : loadLedgerContent w.ledger = Except.ok recorded)
    (hrb : needs_rebuild w.chromaDirExists (get_current_pdf_files w.entries)
      recorded = false) :
    runScript w = ⟨w, false, some 0, some false, Except.ok ()⟩ := by
  simp [runScript, hdir, hload, hrb]

/-- A run that decides to rebuild with a succeeding backend commits the
new store contents and the scanned file set. -/
lemma run_of_rebuild_ok (w : World) (hdir : w.dirExists = true)
    (recorded : Finset String)
    (hload : loadLedgerContent w.ledger = Except.ok recorded)
    (hrb : needs_rebuild w.chromaDirExists (get_current_pdf_files w.entries)
      recorded = true)
    (hst : w.storeOk = true) :
    runScript w =
      ⟨{ w with
          chromaDirExists := true
          store := some (split_documents (extractDocs w.entries).1)
          ledger := saveLedgerContent (get_current_pdf_files w.entries) },
        true, some (split_documents (extractDocs w.entries).1).length,
        some true, Except.ok ()⟩ := by
  simp [runScript, hdir, hload, hrb, hst]

/-- A run that decides to rebuild against a failing backend reports the
store error and leaves the state untouched. -/
lemma run_of_rebuild_fail (w : World) (hdir : w.dirExists = true)
    (recorded : Finset String)
    (hload : loadLedgerContent w.ledger = Except.ok recorded)
    (hrb : needs_rebuild w.chromaDirExists (get_current_pdf_files w.entries)
      recorded = true)
    (hst : w.storeOk = false) :
    runScript w = ⟨w, true, none, some true, Except.error RunError.storeWrite⟩ := by
  simp [runScript, hdir, hload, hrb, hst]

-- ---------------------------------------------------------------------
-- Theorems
-- ---------------------------------------------------------------------

/-- C6: saving a ledger then loading it from the same path returns exactly
the saved set, for every filesystem state, path and finite set of file
names (including the empty set). -/
theorem ledger_round_trip (fs : String → LedgerFile) (path : String)
    (S : Finset String) :
    load_processed_files_record (save_processed_files_record fs path S) path =
      Except.ok S := by
  have hlist : ∀ l : List String, asStringList (l.map Json.jstr) = some l := by
    intro l
    induction l with
    | nil => rfl
    | cons a t ih => simp [asStringList, ih]
  have hsv : save_processed_files_record fs path S path = saveLedgerContent S := by
    simp [save_processed_files_record]
  simp only [load_processed_files_record, hsv, saveLedgerContent, loadLedgerContent]
  rw [hlist]
  simp [Finset.sort_toFinset]

/-- C7: loading the ledger when no record exists at the path returns the
empty set (first run, not an error), and loading a record whose content is
not parseable raises the corrupt-ledger error rather than returning a
partial set. -/
theorem ledger_load_absent_and_corrupt (fs : String → LedgerFile) (path : String) :
    (fs path = none → load_processed_files_record fs path = Except.ok ∅) ∧
    (fs path = some none →
      load_processed_files_record fs path = Except.error LedgerError.corrupt) := by
  constructor
  · intro h
    simp [load_processed_files_record, h, loadLedgerContent]
  · intro h
    simp [load_processed_files_record, h, loadLedgerContent]

/-- Witness for `ledger_load_absent_and_corrupt` at a concrete filesystem. -/
theorem ledger_load_absent_and_corrupt_witness :
    load_processed_files_record (fun _ => none) "rec.json" = Except.ok ∅ ∧
    load_processed_files_record (fun _ => some none) "rec.json" =
      Except.error LedgerError.corrupt :=
  ⟨(ledger_load_absent_and_corrupt (fun _ => none) "rec.json").1 rfl,
   (ledger_load_absent_and_corrupt (fun _ => some none) "rec.json").2 rfl⟩

/-- C1: the rebuild decision is true exactly when the index is missing or
the current and recorded sets differ; in particular any nonempty symmetric
difference between them forces a rebuild. -/
theorem needs_rebuild_iff (index_exists : Bool) (current recorded : Finset String) :
    (needs_rebuild index_exists current recorded = true ↔
      (index_exists = false ∨ current ≠ recorded)) ∧
    ((current \ recorded ∪ recorded \ current).Nonempty →
      needs_rebuild index_exists current recorded = true) := by
  have hiff : needs_rebuild index_exists current recorded = true ↔
      (index_exists = false ∨ current ≠ recorded) := by
    simp only [needs_rebuild, Bool.or_eq_true, Bool.not_eq_true']
    constructor
    · rintro ((h | h) | h)
      · exact Or.inl h
      · exact Or.inr (fun hne => by simp [hne] at h)
      · exact Or.inr (fun hne => by simp [hne] at h)
    · rintro (h | h)
      · exact Or.inl (Or.inl h)
      · by_cases hcr : current ⊆ recorded
        · by_cases hrc : recorded ⊆ current
          · exact absurd (Finset.Subset.antisymm hcr hrc) h
          · exact Or.inr (by simpa using hrc)
        · exact Or.inl (Or.inr (by simpa using hcr))
  refine ⟨hiff, fun hne => ?_⟩
  rcases hne with ⟨x, hx⟩
  refine hiff.2 (Or.inr (fun heq => ?_))
  subst heq
  simp at hx

/-- Witness for `needs_rebuild_iff`: a disjoint-overlap divergence with the
index present still triggers a rebuild. -/
theorem needs_rebuild_iff_witness :
    needs_rebuild true {"a.pdf", "b.pdf"} {"a.pdf", "c.pdf"} = true :=
  (needs_rebuild_iff true {"a.pdf", "b.pdf"} {"a.pdf", "c.pdf"}).2 (by decide)

/-- C2: a nonempty document of length L processed by the chunking pipeline
with window 5000 and overlap 2000 yields exactly
`max 1 (ceil (max (L - 2000) 0 / 3000))` chunks (Nat subtraction and
`(x + 2999) / 3000` expressing the truncation and the ceiling); a document
no longer than the window yields exactly one chunk; and every pair of
consecutive chunks starts exactly 3000 characters apart. -/
theorem chunking_law (text : List Char) (h : text ≠ []) :
    (split_text 0 text).length = max 1 ((text.length - 2000 + 2999) / 3000) ∧
    (split_documents [Page.mk "doc" text]).length =
      max 1 ((text.length - 2000 + 2999) / 3000) ∧
    (text.length ≤ 5000 → split_text 0 text = [(0, text)]) ∧
    List.Chain' (fun a b => b.1 = a.1 + 3000) (split_text 0 text) := by
  have hne : text.isEmpty = false := by
    simp [List.isEmpty_iff]
    exact h
  refine ⟨?_, ?_, ?_, split_text_chain 0 text⟩
  · rw [split_text_length, hne]
    simp
  · simp [split_documents, split_text_length, hne]
  · intro hle
    rw [split_text, dif_neg (by simp [hne]), dif_pos hle]

/-- Witness for `chunking_law` on the three-character document. -/
theorem chunking_law_witness :
    (split_text 0 ['a', 'b', 'c']).length =
      max 1 ((['a', 'b', 'c'].length - 2000 + 2999) / 3000) ∧
    (split_documents [Page.mk "doc" ['a', 'b', 'c']]).length =
      max 1 ((['a', 'b', 'c'].length - 2000 + 2999) / 3000) ∧
    (['a', 'b', 'c'].length ≤ 5000 →
      split_text 0 ['a', 'b', 'c'] = [(0, ['a', 'b', 'c'])]) ∧
    List.Chain' (fun a b => b.1 = a.1 + 3000) (split_text 0 ['a', 'b', 'c']) :=
  chunking_law ['a', 'b', 'c'] (by decide)

/-- After a run that ends successfully, the resulting state satisfies
everything the decision path needs to conclude no rebuild is required:
folder present, entries untouched, ledger loading to exactly the scanned
set (or the old matching one), and a false `needs_rebuild`. -/
lemma run_world_stable (w : World) (hok : (runScript w).outcome = Except.ok ()) :
    (runScript w).world.dirExists = true ∧
    (runScript w).world.entries = w.entries ∧
    ∃ S, loadLedgerContent ((runScript w).world.ledger) = Except.ok S ∧
      needs_rebuild ((runScript w).world.chromaDirExists)
        (get_current_pdf_files ((runScript w).world.entries)) S = false := by
  cases hdir : w.dirExists with
  | false => simp [runScript, hdir] at hok
  | true =>
      cases hload : loadLedgerContent w.ledger with
      | error e => simp [runScript, hdir, hload] at hok
      | ok recorded =>
          cases hrb : needs_rebuild w.chromaDirExists
              (get_current_pdf_files w.entries) recorded with
          | false =>
              rw [run_of_no_rebuild w hdir recorded hload hrb]
              exact ⟨hdir, rfl, recorded, hload, hrb⟩
          | true =>
              cases hst : w.storeOk with
              | false =>
                  rw [run_of_rebuild_fail w hdir recorded hload hrb hst] at hok
                  simp at hok
              | true =>
                  rw [run_of_rebuild_ok w hdir recorded hload hrb hst]
                  exact ⟨hdir, rfl, get_current_pdf_files w.entries,
                    loadLedgerContent_save _, needs_rebuild_self _⟩

/-- C3: when a rebuild is attempted and the backend embedding/store call
fails partway, the run leaves the persisted ledger (indeed the whole
state) untouched and reports the store-write error, and the next
invocation attempts the full rebuild again. -/
theorem fail_closed_on_store_error (w : World)
    (hcall : (runScript w).storeCalled = true) (hfail : w.storeOk = false) :
    (runScript w).world.ledger = w.ledger ∧
    (runScript w).world = w ∧
    (runScript w).outcome = Except.error RunError.storeWrite ∧
    (runScript ((runScript w).world)).storeCalled = true := by
  cases hdir : w.dirExists with
  | false => simp [runScript, hdir] at hcall
  | true =>
      cases hload : loadLedgerContent w.ledger with
      | error e => simp [runScript, hdir, hload] at hcall
      | ok recorded =>
          cases hrb : needs_rebuild w.chromaDirExists
              (get_current_pdf_files w.entries) recorded with
          | false =>
              rw [run_of_no_rebuild w hdir recorded hload hrb] at hcall
              simp at hcall
          | true =>
              have hrun := run_of_rebuild_fail w hdir recorded hload hrb hfail
              rw [hrun]
              refine ⟨rfl, rfl, rfl, ?_⟩
              show (runScript w).storeCalled = true
              rw [hrun]

/-- Witness for `fail_closed_on_store_error`: first run against a failing
backend on a fresh state leaves the ledger absent and is retried. -/
theorem fail_closed_on_store_error_witness :
    (runScript ⟨true, [], none, false, none, false⟩).world.ledger =
      (⟨true, [], none, false, none, false⟩ : World).ledger ∧
    (runScript ⟨true, [], none, false, none, false⟩).world =
      ⟨true, [], none, false, none, false⟩ ∧
    (runScript ⟨true, [], none, false, none, false⟩).outcome =
      Except.error RunError.storeWrite ∧
    (runScript ((runScript ⟨true, [], none, false, none, false⟩).world)).storeCalled =
      true :=
  fail_closed_on_store_error ⟨true, [], none, false, none, false⟩ rfl rfl

/-- C4: after a run completes successfully, a second run on the resulting
state with the filesystem unchanged is a no-op: it decides against
rebuilding, calls no embedding or store backend, and modifies nothing. -/
theorem second_run_noop (w : World) (hok : (runScript w).outcome = Except.ok ()) :
    (runScript ((runScript w).world)).decision = some false ∧
    (runScript ((runScript w).world)).storeCalled = false ∧
    (runScript ((runScript w).world)).embedCalls = some 0 ∧
    (runScript ((runScript w).world)).world = (runScript w).world := by
  obtain ⟨hd2, he2, S, hl2, hrb2⟩ := run_world_stable w hok
  have h2 := run_of_no_rebuild ((runScript w).world) hd2 S hl2 hrb2
  rw [h2]
  exact ⟨rfl, rfl, rfl, rfl⟩

/-- Witness for `second_run_noop`: first successful run on an empty
folder, then the second run is a no-op. -/
theorem second_run_noop_witness :
    (runScript ((runScript ⟨true, [], none, false, none, true⟩).world)).decision =
      some false ∧
    (runScript ((runScript ⟨true, [], none, false, none, true⟩).world)).storeCalled =
      false ∧
    (runScript ((runScript ⟨true, [], none, false, none, true⟩).world)).embedCalls =
      some 0 ∧
    (runScript ((runScript ⟨true, [], none, false, none, true⟩).world)).world =
      (runScript ⟨true, [], none, false, none, true⟩).world :=
  second_run_noop ⟨true, [], none, false, none, true⟩ rfl

/-- C5: after a successful rebuild the committed ledger is exactly the
overwritten serialization of the scanned eligible set, and loading it back
returns that set. -/
theorem rebuild_full_set_invariant (w : World)
    (hreb : (runScript w).decision = some true)
    (hok : (runScript w).outcome = Except.ok ()) :
    (runScript w).world.ledger =
      saveLedgerContent (get_current_pdf_files w.entries) ∧
    loadLedgerContent ((runScript w).world.ledger) =
      Except.ok (get_current_pdf_files w.entries) := by
  cases hdir : w.dirExists with
  | false => simp [runScript, hdir] at hreb
  | true =>
      cases hload : loadLedgerContent w.ledger with
      | error e => simp [runScript, hdir, hload] at hreb
      | ok recorded =>
          cases hrb : needs_rebuild w.chromaDirExists
              (get_current_pdf_files w.entries) recorded with
          | false =>
              rw [run_of_no_rebuild w hdir recorded hload hrb] at hreb
              simp at hreb
          | true =>
              cases hst : w.storeOk with
              | false =>
                  rw [run_of_rebuild_fail w hdir recorded hload hrb hst] at hok
                  simp at hok
              | true =>
                  rw [run_of_rebuild_ok w hdir recorded hload hrb hst]
                  exact ⟨rfl, loadLedgerContent_save _⟩

/-- Witness for `rebuild_full_set_invariant`: one healthy PDF, first run. -/
theorem rebuild_full_set_invariant_witness :
    (runScript ⟨true, [⟨"a.pdf", true, ".pdf", [], 0, some [['h', 'i']]⟩],
        none, false, none, true⟩).world.ledger =
      saveLedgerContent (get_current_pdf_files
        (⟨true, [⟨"a.pdf", true, ".pdf", [], 0, some [['h', 'i']]⟩],
          none, false, none, true⟩ : World).entries) ∧
    loadLedgerContent ((runScript ⟨true,
        [⟨"a.pdf", true, ".pdf", [], 0, some [['h', 'i']]⟩],
        none, false, none, true⟩).world.ledger) =
      Except.ok (get_current_pdf_files
        (⟨true, [⟨"a.pdf", true, ".pdf", [], 0, some [['h', 'i']]⟩],
          none, false, none, true⟩ : World).entries) :=
  rebuild_full_set_invariant
    ⟨true, [⟨"a.pdf", true, ".pdf", [], 0, some [['h', 'i']]⟩],
      none, false, none, true⟩ rfl rfl

/-- C8: a failing file in the extraction loop — missing extension or a
raising PDF loader — is skipped with an error diagnostic and does not
disturb the pages collected from the other files. -/
theorem extraction_failures_local (l₁ l₂ : List DirEntry) (e : DirEntry)
    (hfile : e.isFile = true)
    (hfail : e.suffix = "" ∨ (lower e.suffix = ".pdf" ∧ e.pages = none)) :
    (extractDocs (l₁ ++ e :: l₂)).1 = (extractDocs l₁).1 ++ (extractDocs l₂).1 ∧
    Diag.errorDiag e.name ∈ (extractDocs (l₁ ++ e :: l₂)).2 := by
  have hpf := processFile_fail e hfile hfail
  have hsplit : extractDocs (l₁ ++ e :: l₂) =
      ((extractDocs l₁).1 ++ ((processFile e).1 ++ (extractDocs l₂).1),
       (extractDocs l₁).2 ++ ((processFile e).2 ++ (extractDocs l₂).2)) := by
    rw [extractDocs_append l₁ (e :: l₂), extractDocs_cons]
  constructor
  · rw [hsplit, hpf]
    simp
  · rw [hsplit, hpf]
    simp

/-- Witness for `extraction_failures_local`: a lone extensionless file is
skipped with a diagnostic and contributes no pages. -/
theorem extraction_failures_local_witness :
    (extractDocs ([] ++ (⟨"noext", true, "", [], 0, none⟩ : DirEntry) :: [])).1 =
      (extractDocs []).1 ++ (extractDocs []).1 ∧
    Diag.errorDiag "noext" ∈
      (extractDocs ([] ++ (⟨"noext", true, "", [], 0, none⟩ : DirEntry) :: [])).2 :=
  extraction_failures_local [] [] ⟨"noext", true, "", [], 0, none⟩ rfl (Or.inl rfl)

/-- C9 counterexample: on a folder whose only PDF fails extraction, a
successful rebuild commits a ledger claiming `a.pdf` while the store
received no chunks at all — the ledger claims a file that was never
embedded. -/
theorem ledger_claims_unembedded_file :
    (runScript cexWorld).outcome = Except.ok () ∧
    (runScript cexWorld).decision = some true ∧
    loadLedgerContent ((runScript cexWorld).world.ledger) =
      Except.ok {"a.pdf"} ∧
    (runScript cexWorld).world.store = some [] := by
  refine ⟨rfl, rfl, ?_, rfl⟩
  have h1 : (runScript cexWorld).world.ledger = saveLedgerContent {"a.pdf"} := rfl
  rw [h1]
  exact loadLedgerContent_save {"a.pdf"}

/-- C9 amended: after a successful rebuild the backend call succeeded, the
committed ledger is exactly the scanned eligible set, and every chunk that
was embedded and upserted belongs to a file the ledger claims — but not
conversely: a claimed file whose extraction failed may have no chunks. -/
theorem embedded_chunks_within_ledger (w : World)
    (hreb : (runScript w).decision = some true)
    (hok : (runScript w).outcome = Except.ok ()) :
    w.storeOk = true ∧
    loadLedgerContent ((runScript w).world.ledger) =
      Except.ok (get_current_pdf_files w.entries) ∧
    ∀ c ∈ ((runScript w).world.store).getD [],
      c.source ∈ get_current_pdf_files w.entries := by
  cases hdir : w.dirExists with
  | false => simp [runScript, hdir] at hreb
  | true =>
      cases hload : loadLedgerContent w.ledger with
      | error e => simp [runScript, hdir, hload] at hreb
      | ok recorded =>
          cases hrb : needs_rebuild w.chromaDirExists
              (get_current_pdf_files w.entries) recorded with
          | false =>
              rw [run_of_no_rebuild w hdir recorded hload hrb] at hreb
              simp at hreb
          | true =>
              cases hst : w.storeOk with
              | false =>
                  rw [run_of_rebuild_fail w hdir recorded hload hrb hst] at hok
                  simp at hok
              | true =>
                  refine ⟨rfl, ?_, ?_⟩
                  · rw [run_of_rebuild_ok w hdir recorded hload hrb hst]
                    exact loadLedgerContent_save _
                  · rw [run_of_rebuild_ok w hdir recorded hload hrb hst]
                    intro c hc
                    obtain ⟨p, hp, hsrc⟩ :=
                      split_documents_source ((extractDocs w.entries).1) c hc
                    rw [hsrc]
                    exact extract_source_mem w.entries p hp

/-- Witness for `embedded_chunks_within_ledger` at the counterexample
world. -/
theorem embedded_chunks_within_ledger_witness :
    cexWorld.storeOk = true ∧
    loadLedgerContent ((runScript cexWorld).world.ledger) =
      Except.ok (get_current_pdf_files cexWorld.entries) ∧
    ∀ c ∈ ((runScript cexWorld).world.store).getD [],
      c.source ∈ get_current_pdf_files cexWorld.entries :=
  embedded_chunks_within_ledger cexWorld rfl rfl

/-- Two runs agreeing on folder existence, on the scanned set of eligible
names, on the loaded ledger record and on the persist-directory flag
reach the same rebuild decision — whatever the directory listing order,
the accompanying non-PDF entries, the ledger serialization, the file
bytes or the extraction outcomes. -/
lemma decision_of_sets (w₁ w₂ : World)
    (hdir : w₁.dirExists = w₂.dirExists)
    (hscan : get_current_pdf_files w₁.entries = get_current_pdf_files w₂.entries)
    (hload : loadLedgerContent w₁.ledger = loadLedgerContent w₂.ledger)
    (hchroma : w₁.chromaDirExists = w₂.chromaDirExists) :
    (runScript w₁).decision = (runScript w₂).decision := by
  cases hd : w₂.dirExists with
  | false =>
      have hd1 : w₁.dirExists = false := by rw [hdir, hd]
      simp [runScript, hd, hd1]
  | true =>
      have hd1 : w₁.dirExists = true := by rw [hdir, hd]
      cases hl : loadLedgerContent w₂.ledger with
      | error e =>
          have hl1 : loadLedgerContent w₁.ledger = Except.error e := by
            rw [hload, hl]
          simp [runScript, hd, hd1, hl, hl1]
      | ok recorded =>
          have hl1 : loadLedgerContent w₁.ledger = Except.ok recorded := by
            rw [hload, hl]
          cases hrb : needs_rebuild w₂.chromaDirExists
              (get_current_pdf_files w₂.entries) recorded with
          | false =>
              have hrb1 : needs_rebuild w₁.chromaDirExists
                  (get_current_pdf_files w₁.entries) recorded = false := by
                rw [hchroma, hscan]; exact hrb
              rw [run_of_no_rebuild w₁ hd1 recorded hl1 hrb1,
                run_of_no_rebuild w₂ hd recorded hl hrb]
          | true =>
              have hrb1 : needs_rebuild w₁.chromaDirExists
                  (get_current_pdf_files w₁.entries) recorded = true := by
                rw [hchroma, hscan]; exact hrb
              cases hs1 : w₁.storeOk with
              | true =>
                  rw [run_of_rebuild_ok w₁ hd1 recorded hl1 hrb1 hs1]
                  cases hs2 : w₂.storeOk with
                  | true => rw [run_of_rebuild_ok w₂ hd recorded hl hrb hs2]
                  | false => rw [run_of_rebuild_fail w₂ hd recorded hl hrb hs2]
              | false =>
                  rw [run_of_rebuild_fail w₁ hd1 recorded hl1 hrb1 hs1]
                  cases hs2 : w₂.storeOk with
                  | true => rw [run_of_rebuild_ok w₂ hd recorded hl hrb hs2]
                  | false => rw [run_of_rebuild_fail w₂ hd recorded hl hrb hs2]

/-- C10: the rebuild decision depends only on the set of eligible file
names scanned from the directory, the set of names loaded from the
ledger, and the persist-directory flag — two runs agreeing on these (and
on folder existence) decide identically, regardless of listing order,
non-PDF entries, ledger serialization, file bytes, modification times or
extraction outcomes; in particular, replacing the directory entries by
any list with the same names, file flags and suffixes — e.g. changing an
already-indexed PDF's bytes or modification time — never changes the
decision. -/
theorem decision_noninterference (w₁ w₂ : World)
    (hdir : w₁.dirExists = w₂.dirExists)
    (hscan : get_current_pdf_files w₁.entries = get_current_pdf_files w₂.entries)
    (hload : loadLedgerContent w₁.ledger = loadLedgerContent w₂.ledger)
    (hchroma : w₁.chromaDirExists = w₂.chromaDirExists) :
    (runScript w₁).decision = (runScript w₂).decision ∧
    (∀ l : List DirEntry, w₂.entries.map obsEntry = l.map obsEntry →
      (runScript { w₂ with entries := l }).decision = (runScript w₂).decision) :=
  ⟨decision_of_sets w₁ w₂ hdir hscan hload hchroma,
   fun l hl => decision_of_sets { w₂ with entries := l } w₂ rfl
     (scan_obs l w₂.entries hl.symm) rfl rfl⟩

/-- Witness for `decision_noninterference`: two runs with the same
eligible set and recorded set but a different directory listing (an extra
text file), different file bytes, modification times and extraction
outcomes, and a differently produced ledger serialization, decide
identically; bytes/mtime edits to the indexed PDF never change the
decision. -/
theorem decision_noninterference_witness :
    (runScript ⟨true,
        [⟨"notes.txt", true, ".txt", [7], 3, none⟩,
         ⟨"a.pdf", true, ".pdf", [0], 0, some [['x']]⟩],
        some (some (Json.jarr [Json.jstr "a.pdf", Json.jstr "a.pdf"])),
        true, none, true⟩).decision =
      (runScript ⟨true, [⟨"a.pdf", true, ".pdf", [1, 2], 9, none⟩],
        saveLedgerContent {"a.pdf"}, true, none, false⟩).decision ∧
    (∀ l : List DirEntry,
      (⟨true, [⟨"a.pdf", true, ".pdf", [1, 2], 9, none⟩],
        saveLedgerContent {"a.pdf"}, true, none, false⟩ : World).entries.map
          obsEntry = l.map obsEntry →
      (runScript { (⟨true, [⟨"a.pdf", true, ".pdf", [1, 2], 9, none⟩],
          saveLedgerContent {"a.pdf"}, true, none, false⟩ : World) with
            entries := l }).decision =
        (runScript ⟨true, [⟨"a.pdf", true, ".pdf", [1, 2], 9, none⟩],
          saveLedgerContent {"a.pdf"}, true, none, false⟩).decision) :=
  decision_noninterference
    ⟨true,
      [⟨"notes.txt", true, ".txt", [7], 3, none⟩,
       ⟨"a.pdf", true, ".pdf", [0], 0, some [['x']]⟩],
      some (some (Json.jarr [Json.jstr "a.pdf", Json.jstr "a.pdf"])),
      true, none, true⟩
    ⟨true, [⟨"a.pdf", true, ".pdf", [1, 2], 9, none⟩],
      saveLedgerContent {"a.pdf"}, true, none, false⟩
    rfl (by decide)
    (by
      rw [show (⟨true, [⟨"a.pdf", true, ".pdf", [1, 2], 9, none⟩],
          saveLedgerContent {"a.pdf"}, true, none, false⟩ : World).ledger =
        saveLedgerContent {"a.pdf"} from rfl, loadLedgerContent_save]
      show Except.ok (["a.pdf", "a.pdf"].toFinset : Finset String) =
        Except.ok ({"a.pdf"} : Finset String)
      exact congrArg Except.ok (by decide))
    rfl
